import Mathlib

/-!
Shallow embedding of the ArcticVend kiosk order-to-fulfillment pipeline
(src/app.py, src/models.py, src/utils.py, src/shopify_client.py).

Modelling conventions:

* The SQLAlchemy `order_queue` table is a list of `OrderQueue` records in
  insertion (rowid) order; `query.filter_by(...).first()` returns the first
  match in that order, and `order_by(created_at).first()` returns the row
  with the least `created_at`, ties resolved to the earlier row (SQLite
  rowid order).
* Timestamps (`datetime.now()` / `datetime.utcnow()`) are abstract `Nat`
  instants passed in as a `now` parameter.
* The `items` column is a JSON text blob: `ItemsText` is either text that
  decodes to a list of items or malformed text, and `json_loads` models
  `json.loads` (`none` where Python raises).
* The Shopify client performs network I/O; its observable results enter as
  oracle parameters: `ShopifyClient.create_order` yields
  `Option RemoteOrder` (the client returns `None` on every failure), and
  `ShopifyClient.fulfill_order` yields a `Bool` (the client catches all of
  its own exceptions and returns `False` on failure; it never raises into
  the caller).
* Files written by `save_order_to_queue` are an append-only list of
  `QueueFile` snapshots tagged with the status directory they were
  written under.
* Item unit prices are carried opaquely; no route in the modelled core
  computes with them, so they are embedded as `Nat`.
-/

namespace ArcticVend

/-- Order status; models.py constrains `status` to exactly these four values
via a CHECK constraint. -/
inductive Status where
  | pending
  | processing
  | completed
  | failed
deriving DecidableEq, Repr

/-- One cart line item / one element of the decoded `items` JSON:
`{sku, title, price, quantity}` as built in `add_to_cart` (app.py). -/
structure Item where
  sku : String
  title : String
  price : Nat
  quantity : Nat
deriving DecidableEq, Repr

/-- The `items` column of `order_queue` is a JSON text blob; it either
decodes to a list of items or is malformed. -/
inductive ItemsText where
  | decodes (items : List Item)
  | malformed
deriving DecidableEq, Repr

/-- Models `json.loads` applied to the `items` column: `none` where Python
would raise an exception. -/
def json_loads : ItemsText → Option (List Item)
  | .decodes items => some items
  | .malformed => none

/-- A row of the `order_queue` table (models.py, class OrderQueue). -/
structure OrderQueue where
  id : String
  order_type : String
  shopify_order_id : Option String
  shopify_order_number : Option String
  items : ItemsText
  status : Status
  pickup_code : Option String
  test_order : Bool
  created_at : Nat
  processed_at : Option Nat
  completed_at : Option Nat
deriving DecidableEq, Repr

/-- A row of the `shelf_mappings` table (models.py, class ShelfMapping). -/
structure ShelfMapping where
  shelf_number : Nat
  sku : String
  product_name : String
  current_stock : Nat
  active : Bool
deriving DecidableEq, Repr

/-- The fields of a successful `ShopifyClient.create_order` response that
the pipeline reads: `order_data.get('id')` and
`order_data.get('order_number')`. -/
structure RemoteOrder where
  id : String
  order_number : String
deriving DecidableEq, Repr

/-- One JSON file written by `save_order_to_queue` (utils.py) under the
status directory `dir`; fields are the union of the `queue_data` dicts
built in `complete_order` and `verify_pickup` (app.py), with `none` for
keys a given writer does not emit. -/
structure QueueFile where
  dir : String
  order_id : String
  order_type : String
  shopify_order_id : Option String
  shopify_order_number : Option String
  items : List Item
  shelf_numbers : List Nat
  pickup_code : Option String
  created_at : Nat
  processing_at : Option Nat
  test_order : Option Bool
deriving DecidableEq, Repr

/-- Models `save_order_to_queue(order_data, status)` (utils.py): writes one
new file under `orders/<status>/`; existing files are never mutated. -/
def save_order_to_queue (files : List QueueFile) (f : QueueFile) : List QueueFile :=
  files ++ [f]

/-- Models `ShelfMapping.query.filter_by(sku=..., active=True).first()`:
first row in table order whose `sku` matches and which is active. -/
def first_shelf_for : List ShelfMapping → String → Option ShelfMapping
  | [], _ => none
  | s :: rest, sku =>
    if s.sku = sku ∧ s.active = true then some s else first_shelf_for rest sku

/-- Models `OrderQueue.query.get_or_404(order_id)` lookup by primary key:
first row whose `id` matches. -/
def get_by_id : List OrderQueue → String → Option OrderQueue
  | [], _ => none
  | o :: rest, oid => if o.id = oid then some o else get_by_id rest oid

/-- Models mutating the ORM row with primary key `oid` and committing:
every row with that id is replaced by its update (ids are unique in the
real table, `id` being the primary key). -/
def db_update (db : List OrderQueue) (oid : String) (f : OrderQueue → OrderQueue) :
    List OrderQueue :=
  db.map fun o => if o.id = oid then f o else o

/-- Models `OrderQueue.query.filter_by(pickup_code=..., status='pending',
order_type='wolt').first()` in `verify_pickup` (app.py). -/
def first_pending_wolt_with_code : List OrderQueue → String → Option OrderQueue
  | [], _ => none
  | o :: rest, code =>
    if o.pickup_code = some code ∧ o.status = .pending ∧ o.order_type = "wolt"
    then some o else first_pending_wolt_with_code rest code

/-- Models `OrderQueue.query.filter_by(status='pending')
.order_by(OrderQueue.created_at).first()` in `api_next_order` (app.py):
the pending row with least `created_at`, ties going to the earlier row. -/
def oldest_pending : List OrderQueue → Option OrderQueue
  | [] => none
  | o :: rest =>
    let r := oldest_pending rest
    if o.status = .pending then
      match r with
      | none => some o
      | some b => if o.created_at ≤ b.created_at then some o else some b
    else r

/-- The shelf-number loop of `complete_order` (app.py lines 224-228): for
each cart item with an active shelf mapping, append the shelf number ONCE
(no per-quantity expansion in this loop). -/
def checkout_shelf_numbers (shelves : List ShelfMapping) (cart : List Item) : List Nat :=
  cart.foldl
    (fun acc item =>
      match first_shelf_for shelves item.sku with
      | some shelf => acc ++ [shelf.shelf_number]
      | none => acc)
    []

/-- The shelf-number loop of `api_next_order` (app.py lines 649-653): for
each item with an active shelf mapping, append the shelf number once per
unit of quantity. -/
def next_order_shelf_numbers (shelves : List ShelfMapping) (items : List Item) : List Nat :=
  items.foldl
    (fun acc item =>
      match first_shelf_for shelves item.sku with
      | some shelf => acc ++ List.replicate item.quantity shelf.shelf_number
      | none => acc)
    []

/-- Outcome of the `complete_order` checkout route (app.py): redirect on an
empty cart, error redirect when remote creation returns `None` (or an
exception escapes), or the order-complete page. -/
inductive CheckoutOutcome where
  | emptyCartRedirect
  | errorRedirect
  | orderComplete (order_number : String) (order_id : String)
deriving DecidableEq, Repr

/-- Result of the checkout route: HTTP outcome plus the database and queue
directory afterwards. -/
structure CheckoutResult where
  outcome : CheckoutOutcome
  db : List OrderQueue
  files : List QueueFile
deriving DecidableEq, Repr

/-- Models the `complete_order` route (app.py lines 203-267). `created` is
the oracle result of `shopify_client.create_order(cart)`; `order_id` the
fresh uuid; `order_number` the `get_next_order_number()` value; `test_mode`
the session flag; `now` the current instant. On success it writes one queue
file under `pending/` and inserts one `pending` row. -/
def complete_order (db : List OrderQueue) (files : List QueueFile)
    (shelves : List ShelfMapping) (cart : List Item)
    (created : Option RemoteOrder) (order_id order_number : String)
    (test_mode : Bool) (now : Nat) : CheckoutResult :=
  if cart = [] then ⟨.emptyCartRedirect, db, files⟩
  else
    match created with
    | none => ⟨.errorRedirect, db, files⟩
    | some order_data =>
      let shelf_numbers := checkout_shelf_numbers shelves cart
      let qf : QueueFile :=
        { dir := "pending", order_id := order_id, order_type := "kiosk",
          shopify_order_id := some order_data.id,
          shopify_order_number := some order_data.order_number,
          items := cart, shelf_numbers := shelf_numbers, pickup_code := none,
          created_at := now, processing_at := none, test_order := some test_mode }
      let db_order : OrderQueue :=
        { id := order_id, order_type := "kiosk",
          shopify_order_id := some order_data.id,
          shopify_order_number := some order_data.order_number,
          items := .decodes cart, status := .pending, pickup_code := none,
          test_order := test_mode, created_at := now,
          processed_at := none, completed_at := none }
      ⟨.orderComplete order_number order_id, db ++ [db_order],
        save_order_to_queue files qf⟩

/-- Outcome of the `verify_pickup` route (app.py): the typed invalid-code
flash, the confirmation page showing the Shopify order number, or the
generic exception handler's error flash. -/
inductive PickupOutcome where
  | invalidCode
  | pickupConfirmed (order_number : Option String)
  | systemError
deriving DecidableEq, Repr

/-- Result of the pickup-verification route. -/
structure PickupResult where
  outcome : PickupOutcome
  db : List OrderQueue
  files : List QueueFile
deriving DecidableEq, Repr

/-- Models the `verify_pickup` route (app.py lines 274-315). The status
update is committed BEFORE `json.loads(order.items)` runs, so a decode
failure reaches the exception handler with the transition already
persisted. Only `status` is assigned; `processed_at` is not touched. -/
def verify_pickup (db : List OrderQueue) (files : List QueueFile)
    (pickup_code : String) (now : Nat) : PickupResult :=
  match first_pending_wolt_with_code db pickup_code with
  | none => ⟨.invalidCode, db, files⟩
  | some order =>
    let db1 := db_update db order.id fun o => { o with status := .processing }
    match json_loads order.items with
    | none => ⟨.systemError, db1, files⟩
    | some items =>
      let qf : QueueFile :=
        { dir := "processing", order_id := order.id, order_type := "wolt",
          shopify_order_id := order.shopify_order_id,
          shopify_order_number := order.shopify_order_number,
          items := items, shelf_numbers := [], pickup_code := some pickup_code,
          created_at := order.created_at, processing_at := some now,
          test_order := none }
      ⟨.pickupConfirmed order.shopify_order_number, db1,
        save_order_to_queue files qf⟩

/-- Outcome of `GET /api/orders/next` (app.py): the `no_orders` sentinel
(HTTP 200), a success payload, or the 500 error body from the exception
handler. -/
inductive NextOutcome where
  | noOrders
  | nextSuccess (order_id order_type : String)
      (shelf_numbers : List Nat) (items : List Item)
  | nextError
deriving DecidableEq, Repr

/-- Result of the claim-next route. -/
structure NextResult where
  outcome : NextOutcome
  db : List OrderQueue
deriving DecidableEq, Repr

/-- Models the `api_next_order` route (app.py lines 629-665). The claimed
order's transition to `processing` (with `processed_at`) is committed
BEFORE `json.loads(order.items)` runs; a decode failure therefore returns
the error body while the transition stays committed. -/
def api_next_order (db : List OrderQueue) (shelves : List ShelfMapping)
    (now : Nat) : NextResult :=
  match oldest_pending db with
  | none => ⟨.noOrders, db⟩
  | some order =>
    let db1 := db_update db order.id
      fun o => { o with status := .processing, processed_at := some now }
    match json_loads order.items with
    | none => ⟨.nextError, db1⟩
    | some items =>
      ⟨.nextSuccess order.id order.order_type
        (next_order_shelf_numbers shelves items) items, db1⟩

/-- Outcome of the machine-facing POST routes: the success body or the 500
error body (the route's blanket `except` also swallows the `get_or_404`
abort, so a missing order surfaces as the error body). -/
inductive ApiOutcome where
  | apiSuccess
  | apiError
deriving DecidableEq, Repr

/-- Result of `POST /api/orders/<id>/complete`: outcome, database, whether
`shopify_client.fulfill_order` was invoked, and the value it returned
(which the route ignores). -/
structure CompleteResult where
  outcome : ApiOutcome
  db : List OrderQueue
  fulfill_called : Bool
  fulfill_result : Option Bool
deriving DecidableEq, Repr

/-- Models the `api_complete_order` route (app.py lines 667-686). `fulfill`
is the oracle result of `shopify_client.fulfill_order` (`false` = remote
fulfillment failed; the client never raises). The route checks no current
status: it calls fulfillment whenever `shopify_order_id` is set and then
unconditionally assigns `status='completed'` and `completed_at`. -/
def api_complete_order (db : List OrderQueue) (order_id : String)
    (fulfill : Bool) (now : Nat) : CompleteResult :=
  match get_by_id db order_id with
  | none => ⟨.apiError, db, false, none⟩
  | some order =>
    let called := order.shopify_order_id.isSome
    let db1 := db_update db order.id
      fun o => { o with status := .completed, completed_at := some now }
    ⟨.apiSuccess, db1, called, if called then some fulfill else none⟩

/-- Result of `POST /api/orders/<id>/status`. -/
structure StatusResult where
  outcome : ApiOutcome
  db : List OrderQueue
deriving DecidableEq, Repr

/-- Models the `api_update_order_status` route (app.py lines 688-708). The
requested status (one of the four values the table's CHECK constraint
admits) is assigned unconditionally — the current status is never read;
`message` is read from the request body and then unused. -/
def api_update_order_status (db : List OrderQueue) (order_id : String)
    (status : Status) (message : String) (now : Nat) : StatusResult :=
  match get_by_id db order_id with
  | none => ⟨.apiError, db⟩
  | some order =>
    ⟨.apiSuccess,
      db_update db order.id fun o =>
        { o with
          status := status,
          completed_at := if status = .completed then some now else o.completed_at,
          processed_at := if status = .processing then some now else o.processed_at }⟩

/-- The forward order on statuses claimed by the spec's state machine:
moves forward through pending, processing, completed, or to failed;
completed and failed are terminal. -/
def forwardLe : Status → Status → Bool
  | .pending, _ => true
  | .processing, .pending => false
  | .processing, _ => true
  | .completed, .completed => true
  | .failed, .failed => true
  | _, _ => false

/-- Staying in place is a forward move. -/
theorem forwardLe_refl (s : Status) : forwardLe s s = true := by
  cases s <;> rfl

/-- Pointwise relation between a table and its row-wise update. -/
theorem forall₂_map_self {α : Type} {R : α → α → Prop} {f : α → α} :
    ∀ {l : List α}, (∀ x ∈ l, R x (f x)) → List.Forall₂ R l (l.map f) := by
  intro l
  induction l with
  | nil => intro _; simp
  | cons a t ih =>
    intro h
    exact List.Forall₂.cons (h a (by simp)) (ih fun x hx => h x (by simp [hx]))

/-- Rows found by primary-key lookup are members with the looked-up id. -/
theorem get_by_id_mem {db : List OrderQueue} {oid : String} {o : OrderQueue}
    (h : get_by_id db oid = some o) : o ∈ db ∧ o.id = oid := by
  induction db with
  | nil => simp [get_by_id] at h
  | cons a t ih =>
    by_cases ha : a.id = oid
    · simp [get_by_id, ha] at h
      subst h
      exact ⟨List.mem_cons_self a t, ha⟩
    · simp [get_by_id, ha] at h
      rcases ih h with ⟨hm, hi⟩
      exact ⟨List.mem_cons_of_mem a hm, hi⟩

/-- A member with a given id makes the primary-key lookup succeed with a row
of that id. -/
theorem get_by_id_of_mem {db : List OrderQueue} {oid : String} {o : OrderQueue}
    (ho : o ∈ db) (hid : o.id = oid) :
    ∃ b, get_by_id db oid = some b ∧ b.id = oid := by
  induction db with
  | nil => simp at ho
  | cons a t ih =>
    by_cases ha : a.id = oid
    · exact ⟨a, by simp [get_by_id, ha], ha⟩
    · rcases List.mem_cons.mp ho with h | h
      · subst h; exact absurd hid ha
      · rcases ih h with ⟨b, hb, hbi⟩
        exact ⟨b, by simp [get_by_id, ha, hb], hbi⟩

/-- The row found by the pickup-code query is a member matching all three
filter conditions. -/
theorem first_pending_wolt_with_code_mem {db : List OrderQueue} {code : String}
    {o : OrderQueue} (h : first_pending_wolt_with_code db code = some o) :
    o ∈ db ∧ o.pickup_code = some code ∧ o.status = .pending ∧ o.order_type = "wolt" := by
  induction db with
  | nil => simp [first_pending_wolt_with_code] at h
  | cons a t ih =>
    by_cases ha : a.pickup_code = some code ∧ a.status = .pending ∧ a.order_type = "wolt"
    · simp [first_pending_wolt_with_code, ha] at h
      subst h
      exact ⟨List.mem_cons_self a t, ha⟩
    · simp [first_pending_wolt_with_code, ha] at h
      rcases ih h with ⟨hm, hp⟩
      exact ⟨List.mem_cons_of_mem a hm, hp⟩

/-- If no row matches all three filter conditions, the pickup-code query
returns nothing. -/
theorem first_pending_wolt_with_code_eq_none {db : List OrderQueue} {code : String}
    (h : ∀ o ∈ db,
      ¬(o.pickup_code = some code ∧ o.status = .pending ∧ o.order_type = "wolt")) :
    first_pending_wolt_with_code db code = none := by
  induction db with
  | nil => rfl
  | cons a t ih =>
    have ha := h a (List.mem_cons_self a t)
    simp only [first_pending_wolt_with_code, if_neg ha]
    exact ih fun o ho => h o (List.mem_cons_of_mem a ho)

/-- The oldest-pending query returns nothing exactly when no row is
pending. -/
theorem oldest_pending_eq_none_iff {db : List OrderQueue} :
    oldest_pending db = none ↔ ∀ o ∈ db, o.status ≠ .pending := by
  induction db with
  | nil => simp [oldest_pending]
  | cons a t ih =>
    by_cases ha : a.status = Status.pending
    · simp only [oldest_pending, if_pos ha]
      constructor
      · intro h
        cases hr : oldest_pending t with
        | none => rw [hr] at h; simp at h
        | some b =>
          rw [hr] at h
          by_cases hle : a.created_at ≤ b.created_at <;> simp [hle] at h
      · intro h
        exact absurd ha (h a (List.mem_cons_self a t))
    · simp only [oldest_pending, if_neg ha]
      rw [ih]
      constructor
      · intro h o ho
        rcases List.mem_cons.mp ho with rfl | hm
        · exact ha
        · exact h o hm
      · intro h o ho
        exact h o (List.mem_cons_of_mem a ho)

/-- The row claimed by the oldest-pending query is a pending member. -/
theorem oldest_pending_mem {db : List OrderQueue} {o : OrderQueue}
    (h : oldest_pending db = some o) : o ∈ db ∧ o.status = .pending := by
  induction db with
  | nil => simp [oldest_pending] at h
  | cons a t ih =>
    by_cases ha : a.status = Status.pending
    · simp only [oldest_pending, if_pos ha] at h
      cases hr : oldest_pending t with
      | none =>
        rw [hr] at h
        simp at h
        subst h
        exact ⟨List.mem_cons_self a t, ha⟩
      | some b =>
        rw [hr] at h
        by_cases hle : a.created_at ≤ b.created_at
        · simp [hle] at h
          subst h
          exact ⟨List.mem_cons_self a t, ha⟩
        · simp [hle] at h
          subst h
          rcases ih hr with ⟨hm, hp⟩
          exact ⟨List.mem_cons_of_mem a hm, hp⟩
    · simp only [oldest_pending, if_neg ha] at h
      rcases ih h with ⟨hm, hp⟩
      exact ⟨List.mem_cons_of_mem a hm, hp⟩

/-- The row claimed by the oldest-pending query has the least `created_at`
among pending rows. -/
theorem oldest_pending_min {db : List OrderQueue} :
    ∀ {o : OrderQueue}, oldest_pending db = some o →
      ∀ x ∈ db, x.status = .pending → o.created_at ≤ x.created_at := by
  induction db with
  | nil => intro o h; simp [oldest_pending] at h
  | cons a t ih =>
    intro o h x hx hxp
    by_cases ha : a.status = Status.pending
    · simp only [oldest_pending, if_pos ha] at h
      cases hr : oldest_pending t with
      | none =>
        rw [hr] at h
        simp at h
        subst h
        rcases List.mem_cons.mp hx with rfl | hm
        · exact Nat.le_refl _
        · exact absurd hxp ((oldest_pending_eq_none_iff.mp hr) x hm)
      | some b =>
        rw [hr] at h
        by_cases hle : a.created_at ≤ b.created_at
        · simp [hle] at h
          subst h
          rcases List.mem_cons.mp hx with rfl | hm
          · exact Nat.le_refl _
          · exact Nat.le_trans hle (ih hr x hm hxp)
        · simp [hle] at h
          subst h
          rcases List.mem_cons.mp hx with rfl | hm
          · exact Nat.le_of_lt (Nat.lt_of_not_le hle)
          · exact ih hr x hm hxp
    · simp only [oldest_pending, if_neg ha] at h
      rcases List.mem_cons.mp hx with rfl | hm
      · exact absurd hxp ha
      · exact ih h x hm hxp

/-- Among pending rows of least `created_at`, the oldest-pending query
returns the earliest-inserted one: every earlier pending row is strictly
younger. -/
theorem oldest_pending_first {db : List OrderQueue} {o : OrderQueue}
    (h : oldest_pending db = some o) :
    ∃ l1 l2, db = l1 ++ o :: l2 ∧
      ∀ x ∈ l1, x.status = .pending → o.created_at < x.created_at := by
  induction db with
  | nil => simp [oldest_pending] at h
  | cons a t ih =>
    by_cases ha : a.status = Status.pending
    · simp only [oldest_pending, if_pos ha] at h
      cases hr : oldest_pending t with
      | none =>
        rw [hr] at h
        simp at h
        subst h
        exact ⟨[], t, rfl, by simp⟩
      | some b =>
        rw [hr] at h
        by_cases hle : a.created_at ≤ b.created_at
        · simp [hle] at h
          subst h
          exact ⟨[], t, rfl, by simp⟩
        · simp [hle] at h
          subst h
          rcases ih hr with ⟨l1, l2, hsplit, hlt⟩
          refine ⟨a :: l1, l2, by rw [hsplit]; rfl, ?_⟩
          intro x hx hxp
          rcases List.mem_cons.mp hx with rfl | hm
          · exact Nat.lt_of_not_le hle
          · exact hlt x hm hxp
    · simp only [oldest_pending, if_neg ha] at h
      rcases ih h with ⟨l1, l2, hsplit, hlt⟩
      refine ⟨a :: l1, l2, by rw [hsplit]; rfl, ?_⟩
      intro x hx hxp
      rcases List.mem_cons.mp hx with rfl | hm
      · exact absurd hxp ha
      · exact hlt x hm hxp

/-- Folding an append-accumulating loop from any accumulator prepends the
accumulator to the flattened per-element contributions. -/
theorem foldl_append_flatten {α β : Type} (g : α → List β) :
    ∀ (l : List α) (acc : List β),
      l.foldl (fun a x => a ++ g x) acc = acc ++ (l.map g).flatten := by
  intro l
  induction l with
  | nil => intro acc; simp
  | cons x xs ih =>
    intro acc
    simp only [List.foldl_cons, List.map_cons, List.flatten_cons, ih]
    rw [List.append_assoc]

/-- The per-unit shelf loop of `api_next_order` equals the flattened list
of per-item contributions: `quantity` copies of the assigned shelf for a
mapped SKU, nothing for an unmapped one. -/
theorem next_order_shelf_numbers_eq (shelves : List ShelfMapping) (items : List Item) :
    next_order_shelf_numbers shelves items =
      (items.map fun it =>
        match first_shelf_for shelves it.sku with
        | some sh => List.replicate it.quantity sh.shelf_number
        | none => []).flatten := by
  have hfun : (fun (acc : List Nat) (item : Item) =>
      match first_shelf_for shelves item.sku with
      | some shelf => acc ++ List.replicate item.quantity shelf.shelf_number
      | none => acc)
      = fun (acc : List Nat) (item : Item) =>
        acc ++ (match first_shelf_for shelves item.sku with
        | some sh => List.replicate item.quantity sh.shelf_number
        | none => []) := by
    funext acc item
    cases first_shelf_for shelves item.sku <;> simp
  unfold next_order_shelf_numbers
  rw [hfun, foldl_append_flatten]
  rfl

/-- The per-item shelf loop of the checkout route equals the flattened list
of per-item contributions: one copy of the assigned shelf for a mapped SKU,
nothing for an unmapped one — quantity plays no role. -/
theorem checkout_shelf_numbers_eq (shelves : List ShelfMapping) (cart : List Item) :
    checkout_shelf_numbers shelves cart =
      (cart.map fun it =>
        match first_shelf_for shelves it.sku with
        | some sh => [sh.shelf_number]
        | none => []).flatten := by
  have hfun : (fun (acc : List Nat) (item : Item) =>
      match first_shelf_for shelves item.sku with
      | some shelf => acc ++ [shelf.shelf_number]
      | none => acc)
      = fun (acc : List Nat) (item : Item) =>
        acc ++ (match first_shelf_for shelves item.sku with
        | some sh => [sh.shelf_number]
        | none => []) := by
    funext acc item
    cases first_shelf_for shelves item.sku <;> simp
  unfold checkout_shelf_numbers
  rw [hfun, foldl_append_flatten]
  rfl

/-- Concrete item with an assigned shelf, used to evaluate the theorems. -/
def itemA : Item := ⟨"A", "Vara A", 100, 3⟩

/-- Concrete item with no shelf assignment. -/
def itemB : Item := ⟨"B", "Vara B", 200, 2⟩

/-- Active shelf assignment mapping SKU A to shelf 7. -/
def shelfA : ShelfMapping := ⟨7, "A", "Vara A", 4, true⟩

/-- Active shelf assignment mapping SKU X to shelf 16. -/
def shelfX : ShelfMapping := ⟨16, "X", "Vara X", 5, true⟩

/-- A pending kiosk order with no pickup code. -/
def exKioskPending : OrderQueue :=
  { id := "ord-a", order_type := "kiosk", shopify_order_id := some "501",
    shopify_order_number := some "1501", items := .decodes [itemA],
    status := .pending, pickup_code := none, test_order := false,
    created_at := 10, processed_at := none, completed_at := none }

/-- A pending kiosk order whose stored items blob is malformed JSON. -/
def exMalformedPending : OrderQueue :=
  { id := "ord-m", order_type := "kiosk", shopify_order_id := some "502",
    shopify_order_number := some "1502", items := .malformed,
    status := .pending, pickup_code := none, test_order := false,
    created_at := 3, processed_at := none, completed_at := none }

/-- A pending kiosk order created earlier (smaller `created_at`). -/
def exPendingOld : OrderQueue :=
  { id := "ord-old", order_type := "kiosk", shopify_order_id := some "503",
    shopify_order_number := some "1503", items := .decodes [itemA],
    status := .pending, pickup_code := none, test_order := false,
    created_at := 3, processed_at := none, completed_at := none }

/-- A pending kiosk order created later (larger `created_at`). -/
def exPendingNew : OrderQueue :=
  { id := "ord-new", order_type := "kiosk", shopify_order_id := some "504",
    shopify_order_number := some "1504", items := .decodes [itemB],
    status := .pending, pickup_code := none, test_order := false,
    created_at := 8, processed_at := none, completed_at := none }

/-- An already-completed kiosk order with a Shopify order id. -/
def exCompleted : OrderQueue :=
  { id := "ord-c", order_type := "kiosk", shopify_order_id := some "555",
    shopify_order_number := some "1001", items := .decodes [itemA],
    status := .completed, pickup_code := none, test_order := false,
    created_at := 0, processed_at := some 1, completed_at := some 2 }

/-- An order currently in processing with a Shopify order id. -/
def exProcessing : OrderQueue :=
  { id := "ord-p", order_type := "kiosk", shopify_order_id := some "556",
    shopify_order_number := some "1002", items := .decodes [itemB],
    status := .processing, pickup_code := none, test_order := false,
    created_at := 4, processed_at := some 5, completed_at := none }

/-- A pending wolt (delivery-partner) order awaiting pickup-code
verification; its `processed_at` is unset. -/
def exWoltPending : OrderQueue :=
  { id := "ord-w", order_type := "wolt", shopify_order_id := some "600",
    shopify_order_number := some "1600", items := .decodes [itemA],
    status := .pending, pickup_code := some "483920", test_order := false,
    created_at := 6, processed_at := none, completed_at := none }

/-- C7 (confirmed): the shelf resolution of `GET /api/orders/next` appends,
for each item whose SKU has an active assignment, the shelf number once per
unit of quantity (contiguously); an item with no active assignment
contributes nothing, so an unmapped SKU alone yields `[]`; output follows
input item order. -/
theorem next_order_shelf_resolution (shelves : List ShelfMapping) :
    (∀ (it : Item) (sh : ShelfMapping), first_shelf_for shelves it.sku = some sh →
      next_order_shelf_numbers shelves [it] =
        List.replicate it.quantity sh.shelf_number) ∧
    (∀ it : Item, first_shelf_for shelves it.sku = none →
      next_order_shelf_numbers shelves [it] = []) ∧
    (∀ (it : Item) (rest : List Item),
      next_order_shelf_numbers shelves (it :: rest) =
        next_order_shelf_numbers shelves [it] ++
          next_order_shelf_numbers shelves rest) := by
  refine ⟨?_, ?_, ?_⟩
  · intro it sh h
    rw [next_order_shelf_numbers_eq]
    simp [h]
  · intro it h
    rw [next_order_shelf_numbers_eq]
    simp [h]
  · intro it rest
    rw [next_order_shelf_numbers_eq, next_order_shelf_numbers_eq,
      next_order_shelf_numbers_eq]
    simp

/-- Witness for C7: quantity 3 of SKU A on shelf 7 resolves to `[7,7,7]`;
the unmapped SKU B alone resolves to `[]`. -/
theorem next_order_shelf_resolution_witness :
    next_order_shelf_numbers [shelfA] [itemA] = [7, 7, 7] ∧
    next_order_shelf_numbers [shelfA] [itemB] = [] := by
  constructor
  · exact ((next_order_shelf_resolution [shelfA]).1 itemA shelfA rfl).trans rfl
  · exact (next_order_shelf_resolution [shelfA]).2.1 itemB rfl

/-- C8 (confirmed): when remote order creation fails (the Shopify client
returns None, covering both unreachable service and rejected order), the
checkout returns the error redirect and persists neither a database row nor
a queue file. -/
theorem checkout_aborts_on_remote_failure
    (db : List OrderQueue) (files : List QueueFile) (shelves : List ShelfMapping)
    (cart : List Item) (order_id order_number : String) (test_mode : Bool)
    (now : Nat) (hcart : cart ≠ []) :
    complete_order db files shelves cart none order_id order_number test_mode now
      = ⟨.errorRedirect, db, files⟩ := by
  simp [complete_order, hcart]

/-- Witness for C8 at a concrete nonempty cart. -/
theorem checkout_aborts_on_remote_failure_witness :
    complete_order [] [] [shelfX] [⟨"X", "Vara X", 100, 2⟩] none "ord-x" "K1"
        false 0
      = ⟨.errorRedirect, [], []⟩ :=
  checkout_aborts_on_remote_failure [] [] [shelfX] [⟨"X", "Vara X", 100, 2⟩]
    "ord-x" "K1" false 0 (by simp)

/-- C9 (confirmed): a submitted pickup code matching no pending wolt order
yields the typed invalid-code outcome — a constructor distinct from the
system-error outcome — and leaves the database and the queue files
unchanged. -/
theorem verify_pickup_invalid_code_typed
    (db : List OrderQueue) (files : List QueueFile) (code : String) (now : Nat)
    (h : ∀ o ∈ db,
      ¬(o.pickup_code = some code ∧ o.status = .pending ∧ o.order_type = "wolt")) :
    verify_pickup db files code now = ⟨.invalidCode, db, files⟩ ∧
      PickupOutcome.invalidCode ≠ PickupOutcome.systemError := by
  refine ⟨?_, by simp⟩
  unfold verify_pickup
  rw [first_pending_wolt_with_code_eq_none h]

/-- Witness for C9: an unknown code against a database holding only a
codeless kiosk order. -/
theorem verify_pickup_invalid_code_typed_witness :
    verify_pickup [exKioskPending] [] "000000" 5
        = ⟨.invalidCode, [exKioskPending], []⟩ ∧
      PickupOutcome.invalidCode ≠ PickupOutcome.systemError :=
  verify_pickup_invalid_code_typed [exKioskPending] [] "000000" 5 (by decide)

/-- C10 (confirmed): when the claimed order's items blob fails to decode,
`GET /api/orders/next` returns the error outcome, yet the
pending-to-processing transition committed beforehand stays: the claimed
order remains processing with `processed_at` set, and its shelf numbers are
never delivered. -/
theorem api_next_order_commits_before_decode
    (db : List OrderQueue) (shelves : List ShelfMapping) (now : Nat)
    (o : OrderQueue) (h : oldest_pending db = some o)
    (hm : json_loads o.items = none) :
    (api_next_order db shelves now).outcome = .nextError ∧
    { o with status := .processing, processed_at := some now }
      ∈ (api_next_order db shelves now).db := by
  have hmem := (oldest_pending_mem h).1
  have hdb : (api_next_order db shelves now)
      = ⟨.nextError, db_update db o.id
          fun x => { x with status := .processing, processed_at := some now }⟩ := by
    simp [api_next_order, h, hm]
  rw [hdb]
  refine ⟨rfl, ?_⟩
  unfold db_update
  have heq : ({ o with status := Status.processing, processed_at := some now }
        : OrderQueue)
      = (fun x => if x.id = o.id
          then { x with status := Status.processing, processed_at := some now }
          else x) o := by
    simp
  rw [heq]
  exact List.mem_map_of_mem _ hmem

/-- Witness for C10: a single pending order with a malformed items blob is
claimed, the call errors, and the order is left in processing. -/
theorem api_next_order_commits_before_decode_witness :
    (api_next_order [exMalformedPending] [] 9).outcome = .nextError ∧
    { exMalformedPending with status := .processing, processed_at := some 9 }
      ∈ (api_next_order [exMalformedPending] [] 9).db :=
  api_next_order_commits_before_decode [exMalformedPending] [] 9
    exMalformedPending rfl rfl

/-- C3 (confirmed): `GET /api/orders/next` returns the `no_orders` sentinel
with the database unchanged when no pending order exists; otherwise the
selected order is a pending row of least `created_at` — the earliest
inserted among ties — exactly that row moves to processing with
`processed_at = now` (other rows are untouched), and the success payload
carries its id, type, resolved shelf numbers and items. -/
theorem api_next_order_claims_oldest_pending
    (db : List OrderQueue) (shelves : List ShelfMapping) (now : Nat) :
    ((∀ o ∈ db, o.status ≠ .pending) →
      api_next_order db shelves now = ⟨.noOrders, db⟩) ∧
    (∀ (o : OrderQueue) (items : List Item),
      oldest_pending db = some o → json_loads o.items = some items →
      o ∈ db ∧ o.status = .pending ∧
      (∀ x ∈ db, x.status = .pending → o.created_at ≤ x.created_at) ∧
      (∃ l1 l2, db = l1 ++ o :: l2 ∧
        ∀ x ∈ l1, x.status = .pending → o.created_at < x.created_at) ∧
      (api_next_order db shelves now).outcome =
        .nextSuccess o.id o.order_type
          (next_order_shelf_numbers shelves items) items ∧
      { o with status := .processing, processed_at := some now }
        ∈ (api_next_order db shelves now).db ∧
      (∀ x ∈ db, x.id ≠ o.id → x ∈ (api_next_order db shelves now).db)) := by
  constructor
  · intro h
    have hn : oldest_pending db = none := oldest_pending_eq_none_iff.mpr h
    simp [api_next_order, hn]
  · intro o items h hi
    rcases oldest_pending_mem h with ⟨hmem, hpend⟩
    have hdb : (api_next_order db shelves now)
        = ⟨.nextSuccess o.id o.order_type
              (next_order_shelf_numbers shelves items) items,
            db_update db o.id
              fun x =>
                { x with status := .processing, processed_at := some now }⟩ := by
      simp [api_next_order, h, hi]
    refine ⟨hmem, hpend, oldest_pending_min h, oldest_pending_first h, ?_, ?_, ?_⟩
    · rw [hdb]
    · rw [hdb]
      unfold db_update
      have heq : ({ o with status := Status.processing, processed_at := some now }
            : OrderQueue)
          = (fun x => if x.id = o.id
              then { x with status := Status.processing, processed_at := some now }
              else x) o := by
        simp
      rw [heq]
      exact List.mem_map_of_mem _ hmem
    · intro x hx hne
      rw [hdb]
      unfold db_update
      have heq : x = (fun y => if y.id = o.id
          then { y with status := Status.processing, processed_at := some now }
          else y) x := by
        simp [hne]
      rw [heq]
      exact List.mem_map_of_mem _ hx

/-- Witness for C3: of two pending orders the one with the smaller
`created_at` is claimed, resolved to three copies of shelf 7, and moved to
processing. -/
theorem api_next_order_claims_oldest_pending_witness :
    (api_next_order [exPendingNew, exPendingOld] [shelfA] 20).outcome
      = .nextSuccess "ord-old" "kiosk" [7, 7, 7] [itemA] ∧
    { exPendingOld with status := .processing, processed_at := some 20 }
      ∈ (api_next_order [exPendingNew, exPendingOld] [shelfA] 20).db := by
  have h := (api_next_order_claims_oldest_pending [exPendingNew, exPendingOld]
      [shelfA] 20).2 exPendingOld [itemA] rfl rfl
  exact ⟨h.2.2.2.2.1.trans rfl, h.2.2.2.2.2.1⟩

/-- C2 (corrected): `POST /api/orders/<id>/complete` checks no current
status: for any existing order — whatever its status, even already
completed or failed — it reports success, invokes remote fulfillment
exactly when `shopify_order_id` is set, and rewrites the row to completed
with a fresh `completed_at`; completing the same order again therefore
issues remote fulfillment again. -/
theorem api_complete_order_ignores_current_status
    (db : List OrderQueue) (oid : String) (fulfill : Bool) (now : Nat)
    (o : OrderQueue) (h : get_by_id db oid = some o) :
    (api_complete_order db oid fulfill now).outcome = .apiSuccess ∧
    (api_complete_order db oid fulfill now).fulfill_called
      = o.shopify_order_id.isSome ∧
    { o with status := .completed, completed_at := some now }
      ∈ (api_complete_order db oid fulfill now).db := by
  have hmem := (get_by_id_mem h).1
  have hdb : (api_complete_order db oid fulfill now)
      = ⟨.apiSuccess,
          db_update db o.id
            fun x => { x with status := .completed, completed_at := some now },
          o.shopify_order_id.isSome,
          if o.shopify_order_id.isSome then some fulfill else none⟩ := by
    simp [api_complete_order, h]
  rw [hdb]
  refine ⟨rfl, rfl, ?_⟩
  unfold db_update
  have heq : ({ o with status := Status.completed, completed_at := some now }
        : OrderQueue)
      = (fun x => if x.id = o.id
          then { x with status := Status.completed, completed_at := some now }
          else x) o := by
    simp
  rw [heq]
  exact List.mem_map_of_mem _ hmem

/-- Counterexample to C2 as stated: completing an already-completed order is
not rejected — the route reports success, invokes remote fulfillment once
more, and overwrites `completed_at`. -/
theorem api_complete_order_refulfills_completed :
    (api_complete_order [exCompleted] "ord-c" true 9).outcome = .apiSuccess ∧
    (api_complete_order [exCompleted] "ord-c" true 9).fulfill_called = true ∧
    (api_complete_order [exCompleted] "ord-c" true 9).db
      = [{ exCompleted with completed_at := some 9 }] := by
  refine ⟨rfl, rfl, ?_⟩
  simp [api_complete_order, get_by_id, db_update, exCompleted]

/-- Witness for C2's corrected statement at the already-completed order. -/
theorem api_complete_order_ignores_current_status_witness :
    (api_complete_order [exCompleted] "ord-c" true 9).outcome = .apiSuccess ∧
    (api_complete_order [exCompleted] "ord-c" true 9).fulfill_called
      = exCompleted.shopify_order_id.isSome ∧
    { exCompleted with status := .completed, completed_at := some 9 }
      ∈ (api_complete_order [exCompleted] "ord-c" true 9).db :=
  api_complete_order_ignores_current_status [exCompleted] "ord-c" true 9
    exCompleted rfl

/-- C5 (corrected): when the remote fulfillment call fails during completion
of a processing order (the Shopify client returns False — it never raises),
the route ignores that result: it still reports success and advances the
order to completed; the failure is not surfaced and the order is not left
in processing for retry. The resulting database is identical to the one a
successful fulfillment would give. -/
theorem api_complete_order_ignores_fulfillment_failure
    (db : List OrderQueue) (oid : String) (now : Nat) (o : OrderQueue)
    (h : get_by_id db oid = some o) (hst : o.status = .processing)
    (hrem : o.shopify_order_id.isSome = true) :
    (api_complete_order db oid false now).outcome = .apiSuccess ∧
    (api_complete_order db oid false now).fulfill_result = some false ∧
    { o with status := .completed, completed_at := some now }
      ∈ (api_complete_order db oid false now).db ∧
    (api_complete_order db oid false now).db
      = (api_complete_order db oid true now).db := by
  have hmem := (get_by_id_mem h).1
  have hres : (api_complete_order db oid false now).fulfill_result = some false := by
    simp [api_complete_order, h, hrem]
  have hdb : ∀ f : Bool, (api_complete_order db oid f now).db
      = db_update db o.id
          fun x => { x with status := .completed, completed_at := some now } := by
    intro f
    simp [api_complete_order, h]
  refine ⟨by simp [api_complete_order, h], hres, ?_, (hdb false).trans (hdb true).symm⟩
  rw [hdb false]
  unfold db_update
  have heq : ({ o with status := Status.completed, completed_at := some now }
        : OrderQueue)
      = (fun x => if x.id = o.id
          then { x with status := Status.completed, completed_at := some now }
          else x) o := by
    simp
  rw [heq]
  exact List.mem_map_of_mem _ hmem

/-- Counterexample to C5 as stated: with the order in processing and remote
fulfillment failing, the completion does not fail and the status does not
stay processing — the route reports success and the row becomes
completed. -/
theorem fulfillment_failure_still_completes :
    (api_complete_order [exProcessing] "ord-p" false 9).fulfill_result
      = some false ∧
    (api_complete_order [exProcessing] "ord-p" false 9).outcome = .apiSuccess ∧
    (api_complete_order [exProcessing] "ord-p" false 9).db
      = [{ exProcessing with status := .completed, completed_at := some 9 }] := by
  refine ⟨rfl, rfl, ?_⟩
  simp [api_complete_order, get_by_id, db_update, exProcessing]

/-- Witness for C5's corrected statement at the processing order. -/
theorem api_complete_order_ignores_fulfillment_failure_witness :
    (api_complete_order [exProcessing] "ord-p" false 9).outcome = .apiSuccess ∧
    (api_complete_order [exProcessing] "ord-p" false 9).fulfill_result
      = some false ∧
    { exProcessing with status := .completed, completed_at := some 9 }
      ∈ (api_complete_order [exProcessing] "ord-p" false 9).db ∧
    (api_complete_order [exProcessing] "ord-p" false 9).db
      = (api_complete_order [exProcessing] "ord-p" true 9).db :=
  api_complete_order_ignores_fulfillment_failure [exProcessing] "ord-p" 9
    exProcessing rfl rfl rfl

/-- C4 (corrected): checking out the cart `[{sku:"X", price:100, qty:2}]`
when remote creation returns `{id:"555", order_number:"K1"}` persists a
pending order with `shopify_order_id = "555"` and writes one queue file
under `pending/` whose fields match the row — but with a SINGLE shelf entry
for the mapped SKU: the checkout loop records the assigned shelf once per
cart line, not once per unit of quantity. -/
theorem checkout_single_shelf_entry_per_item
    (db : List OrderQueue) (files : List QueueFile) (shelves : List ShelfMapping)
    (sh : ShelfMapping) (oid onum : String) (tm : Bool) (now : Nat)
    (h : first_shelf_for shelves "X" = some sh) :
    complete_order db files shelves [⟨"X", "Vara X", 100, 2⟩]
        (some ⟨"555", "K1"⟩) oid onum tm now
      = ⟨.orderComplete onum oid,
          db ++ [⟨oid, "kiosk", some "555", some "K1",
            .decodes [⟨"X", "Vara X", 100, 2⟩], .pending, none, tm, now,
            none, none⟩],
          files ++ [⟨"pending", oid, "kiosk", some "555", some "K1",
            [⟨"X", "Vara X", 100, 2⟩], [sh.shelf_number], none, now, none,
            some tm⟩]⟩ := by
  have hs : checkout_shelf_numbers shelves [⟨"X", "Vara X", 100, 2⟩]
      = [sh.shelf_number] := by
    rw [checkout_shelf_numbers_eq]
    simp [h]
  simp [complete_order, save_order_to_queue, hs]

/-- Counterexample to C4 as stated: with X actively mapped (to shelf 16)
and quantity 2, the queue file written by checkout records exactly one
shelf entry, not two. -/
theorem checkout_no_quantity_expansion :
    ((complete_order [] [] [shelfX] [⟨"X", "Vara X", 100, 2⟩]
        (some ⟨"555", "K1"⟩) "ord-x" "K42" false 12).files.map
      QueueFile.shelf_numbers) = [[16]] ∧
    ((complete_order [] [] [shelfX] [⟨"X", "Vara X", 100, 2⟩]
        (some ⟨"555", "K1"⟩) "ord-x" "K42" false 12).db.map
      OrderQueue.status) = [.pending] ∧
    ¬([[16]] : List (List Nat)) = [[16, 16]] := by
  refine ⟨rfl, rfl, by decide⟩

/-- Witness for C4's corrected statement with the concrete mapping of X to
shelf 16. -/
theorem checkout_single_shelf_entry_per_item_witness :
    complete_order [] [] [shelfX] [⟨"X", "Vara X", 100, 2⟩]
        (some ⟨"555", "K1"⟩) "ord-x" "K42" false 12
      = ⟨.orderComplete "K42" "ord-x",
          [] ++ [⟨"ord-x", "kiosk", some "555", some "K1",
            .decodes [⟨"X", "Vara X", 100, 2⟩], .pending, none, false, 12,
            none, none⟩],
          [] ++ [⟨"pending", "ord-x", "kiosk", some "555", some "K1",
            [⟨"X", "Vara X", 100, 2⟩], [shelfX.shelf_number], none, 12, none,
            some false⟩]⟩ :=
  checkout_single_shelf_entry_per_item [] [] [shelfX] shelfX "ord-x" "K42"
    false 12 rfl

/-- C6 (corrected): verifying a matching pickup code for a pending wolt
order (whose items blob decodes) returns the order's Shopify order number
for display, moves exactly that order to processing leaving every other row
untouched, and writes a queue file under `processing/` carrying the pickup
code and `processing_at = now` — but the order's own `processed_at` column
is left unchanged: the route never assigns it. -/
theorem verify_pickup_transitions_without_processed_at
    (db : List OrderQueue) (files : List QueueFile) (code : String) (now : Nat)
    (o : OrderQueue) (items : List Item)
    (h : first_pending_wolt_with_code db code = some o)
    (hi : json_loads o.items = some items) :
    o ∈ db ∧ o.pickup_code = some code ∧ o.status = .pending ∧
    o.order_type = "wolt" ∧
    (verify_pickup db files code now).outcome
      = .pickupConfirmed o.shopify_order_number ∧
    { o with status := .processing } ∈ (verify_pickup db files code now).db ∧
    (∀ x ∈ db, x.id ≠ o.id → x ∈ (verify_pickup db files code now).db) ∧
    (verify_pickup db files code now).files = files ++
      [⟨"processing", o.id, "wolt", o.shopify_order_id, o.shopify_order_number,
        items, [], some code, o.created_at, some now, none⟩] := by
  rcases first_pending_wolt_with_code_mem h with ⟨hmem, hpc, hpend, htype⟩
  have hdb : (verify_pickup db files code now)
      = ⟨.pickupConfirmed o.shopify_order_number,
          db_update db o.id fun x => { x with status := .processing },
          files ++ [⟨"processing", o.id, "wolt", o.shopify_order_id,
            o.shopify_order_number, items, [], some code, o.created_at,
            some now, none⟩]⟩ := by
    simp [verify_pickup, h, hi, save_order_to_queue]
  refine ⟨hmem, hpc, hpend, htype, ?_, ?_, ?_, ?_⟩
  · rw [hdb]
  · rw [hdb]
    unfold db_update
    have heq : ({ o with status := Status.processing } : OrderQueue)
        = (fun x => if x.id = o.id then { x with status := Status.processing }
            else x) o := by
      simp
    rw [heq]
    exact List.mem_map_of_mem _ hmem
  · intro x hx hne
    rw [hdb]
    unfold db_update
    have heq : x = (fun y => if y.id = o.id
        then { y with status := Status.processing } else y) x := by
      simp [hne]
    rw [heq]
    exact List.mem_map_of_mem _ hx
  · rw [hdb]

/-- Counterexample to C6 as stated: the verification succeeds and the order
moves to processing, yet its `processed_at` is still `none` afterwards, not
the current time. -/
theorem verify_pickup_leaves_processed_at_unset :
    (verify_pickup [exWoltPending] [] "483920" 7).outcome
      = .pickupConfirmed (some "1600") ∧
    ((verify_pickup [exWoltPending] [] "483920" 7).db.map OrderQueue.status)
      = [.processing] ∧
    ((verify_pickup [exWoltPending] [] "483920" 7).db.map
      OrderQueue.processed_at) = [none] ∧
    ¬([none] : List (Option Nat)) = [some 7] := by
  refine ⟨rfl, rfl, rfl, by decide⟩

/-- Witness for C6's corrected statement at the concrete wolt order. -/
theorem verify_pickup_transitions_without_processed_at_witness :
    exWoltPending ∈ ([exWoltPending] : List OrderQueue) ∧
    exWoltPending.pickup_code = some "483920" ∧
    exWoltPending.status = .pending ∧
    exWoltPending.order_type = "wolt" ∧
    (verify_pickup [exWoltPending] [] "483920" 7).outcome
      = .pickupConfirmed exWoltPending.shopify_order_number ∧
    { exWoltPending with status := .processing }
      ∈ (verify_pickup [exWoltPending] [] "483920" 7).db ∧
    (∀ x ∈ ([exWoltPending] : List OrderQueue), x.id ≠ exWoltPending.id →
      x ∈ (verify_pickup [exWoltPending] [] "483920" 7).db) ∧
    (verify_pickup [exWoltPending] [] "483920" 7).files = [] ++
      [⟨"processing", exWoltPending.id, "wolt", exWoltPending.shopify_order_id,
        exWoltPending.shopify_order_number, [itemA], [], some "483920",
        exWoltPending.created_at, some 7, none⟩] :=
  verify_pickup_transitions_without_processed_at [exWoltPending] [] "483920" 7
    exWoltPending [itemA] rfl rfl

/-- C1 (corrected): the monotonicity claim fails only through the
status-update escape hatch. Checkout only appends a new pending row;
pickup verification and the claim-next route only move rows forward in the
order pending, processing, completed (given primary-key uniqueness of row
ids); the completion route rewrites any existing row to completed
regardless of its current status; and the status-update route overwrites
the status with whatever valid status is requested — no current-status
guard exists — so a backward transition such as completed back to pending
is reachable through it. -/
theorem status_transition_discipline (db : List OrderQueue) :
    (∀ (files : List QueueFile) (shelves : List ShelfMapping) (cart : List Item)
        (created : Option RemoteOrder) (oid onum : String) (tm : Bool)
        (now : Nat),
      ∃ tail, (complete_order db files shelves cart created oid onum tm now).db
          = db ++ tail ∧ ∀ o ∈ tail, o.status = .pending) ∧
    ((db.map OrderQueue.id).Nodup →
      ∀ (files : List QueueFile) (code : String) (now : Nat),
        List.Forall₂ (fun o o' => forwardLe o.status o'.status = true) db
          (verify_pickup db files code now).db) ∧
    ((db.map OrderQueue.id).Nodup →
      ∀ (shelves : List ShelfMapping) (now : Nat),
        List.Forall₂ (fun o o' => forwardLe o.status o'.status = true) db
          (api_next_order db shelves now).db) ∧
    (∀ (oid : String) (fulfill : Bool) (now : Nat),
      List.Forall₂ (fun o o' => o' = o ∨
          (o'.status = .completed ∧ o'.completed_at = some now)) db
        (api_complete_order db oid fulfill now).db) ∧
    (∀ (oid : String) (s : Status) (msg : String) (now : Nat) (o : OrderQueue),
      o ∈ db → o.id = oid →
      ∃ o' ∈ (api_update_order_status db oid s msg now).db,
        o'.id = o.id ∧ o'.status = s) := by
  refine ⟨?_, ?_, ?_, ?_, ?_⟩
  · intro files shelves cart created oid onum tm now
    by_cases hc : cart = []
    · exact ⟨[], by simp [complete_order, hc], by simp⟩
    · cases created with
      | none => exact ⟨[], by simp [complete_order, hc], by simp⟩
      | some od =>
        refine ⟨[⟨oid, "kiosk", some od.id, some od.order_number,
          .decodes cart, .pending, none, tm, now, none, none⟩], ?_, ?_⟩
        · simp [complete_order, hc]
        · intro x hx
          rw [List.mem_singleton] at hx
          subst hx
          rfl
  · intro hnodup files code now
    cases hfind : first_pending_wolt_with_code db code with
    | none =>
      have hu : (verify_pickup db files code now).db = db := by
        simp [verify_pickup, hfind]
      rw [hu]
      exact List.forall₂_same.mpr fun x _ => forwardLe_refl x.status
    | some order =>
      rcases first_pending_wolt_with_code_mem hfind with ⟨hmem, _, hpend, _⟩
      have hstep : List.Forall₂ (fun o o' => forwardLe o.status o'.status = true)
          db (db_update db order.id fun x => { x with status := .processing }) := by
        unfold db_update
        apply forall₂_map_self
        intro x hx
        by_cases hid : x.id = order.id
        · have hxo : x = order := List.inj_on_of_nodup_map hnodup hx hmem hid
          subst hxo
          simp [hpend, forwardLe]
        · simp [hid, forwardLe_refl]
      cases hjson : json_loads order.items with
      | none =>
        have hu : (verify_pickup db files code now).db
            = db_update db order.id fun x => { x with status := .processing } := by
          simp [verify_pickup, hfind, hjson]
        rw [hu]
        exact hstep
      | some its =>
        have hu : (verify_pickup db files code now).db
            = db_update db order.id fun x => { x with status := .processing } := by
          simp [verify_pickup, hfind, hjson]
        rw [hu]
        exact hstep
  · intro hnodup shelves now
    cases hfind : oldest_pending db with
    | none =>
      have hu : (api_next_order db shelves now).db = db := by
        simp [api_next_order, hfind]
      rw [hu]
      exact List.forall₂_same.mpr fun x _ => forwardLe_refl x.status
    | some order =>
      rcases oldest_pending_mem hfind with ⟨hmem, hpend⟩
      have hstep : List.Forall₂ (fun o o' => forwardLe o.status o'.status = true)
          db (db_update db order.id
            fun x =>
              { x with status := .processing, processed_at := some now }) := by
        unfold db_update
        apply forall₂_map_self
        intro x hx
        by_cases hid : x.id = order.id
        · have hxo : x = order := List.inj_on_of_nodup_map hnodup hx hmem hid
          subst hxo
          simp [hpend, forwardLe]
        · simp [hid, forwardLe_refl]
      cases hjson : json_loads order.items with
      | none =>
        have hu : (api_next_order db shelves now).db
            = db_update db order.id
                fun x =>
                  { x with status := .processing, processed_at := some now } := by
          simp [api_next_order, hfind, hjson]
        rw [hu]
        exact hstep
      | some its =>
        have hu : (api_next_order db shelves now).db
            = db_update db order.id
                fun x =>
                  { x with status := .processing, processed_at := some now } := by
          simp [api_next_order, hfind, hjson]
        rw [hu]
        exact hstep
  · intro oid fulfill now
    cases hf : get_by_id db oid with
    | none =>
      have hu : (api_complete_order db oid fulfill now).db = db := by
        simp [api_complete_order, hf]
      rw [hu]
      exact List.forall₂_same.mpr fun x _ => Or.inl rfl
    | some order =>
      have hu : (api_complete_order db oid fulfill now).db
          = db_update db order.id
              fun x =>
                { x with status := .completed, completed_at := some now } := by
        simp [api_complete_order, hf]
      rw [hu]
      unfold db_update
      apply forall₂_map_self
      intro x hx
      by_cases hid : x.id = order.id
      · right
        simp [hid]
      · left
        simp [hid]
  · intro oid s msg now o hmem hid
    rcases get_by_id_of_mem hmem hid with ⟨b, hb, hbid⟩
    have hdb : (api_update_order_status db oid s msg now).db
        = db_update db b.id
            fun x =>
              { x with
                status := s,
                completed_at := if s = .completed then some now else x.completed_at,
                processed_at := if s = .processing then some now
                  else x.processed_at } := by
      simp [api_update_order_status, hb]
    rw [hdb]
    unfold db_update
    have hob : o.id = b.id := hid.trans hbid.symm
    refine ⟨_, List.mem_map_of_mem _ hmem, ?_, ?_⟩
    · simp [hob]
    · simp [hob]

/-- Counterexample to C1 as stated: one status-update call moves a completed
order straight back to pending — a backward transition the claim rules
out. -/
theorem completed_order_reset_to_pending :
    exCompleted.status = .completed ∧
    ((api_update_order_status [exCompleted] "ord-c" .pending "" 5).db.map
      OrderQueue.status) = [.pending] ∧
    forwardLe .completed .pending = false := by
  refine ⟨rfl, rfl, rfl⟩

/-- Witness for C1's corrected statement: pickup verification on the
concrete wolt order is a forward step, and a status-update on the completed
order yields exactly the requested (backward) status. -/
theorem status_transition_discipline_witness :
    List.Forall₂ (fun o o' => forwardLe o.status o'.status = true)
      [exWoltPending] (verify_pickup [exWoltPending] [] "483920" 7).db ∧
    ∃ o' ∈ (api_update_order_status [exCompleted] "ord-c" .pending "" 5).db,
      o'.id = exCompleted.id ∧ o'.status = .pending :=
  ⟨(status_transition_discipline [exWoltPending]).2.1 (by decide) [] "483920" 7,
    (status_transition_discipline [exCompleted]).2.2.2.2 "ord-c" .pending "" 5
      exCompleted (List.mem_singleton.mpr rfl) rfl⟩

end ArcticVend
